import Mathlib

/-!
Verification development for `channel_join_request_bot.py`: a Telegram
channel join-request bot whose core is a per-user message-cooldown store
backed by a sqlite table `messaged_users (user_id INTEGER PRIMARY KEY,
last_sent_ts INTEGER)`.

The sqlite table is embedded as a list of rows; `SELECT ... WHERE
user_id = ?` is a first-match lookup, `INSERT` appends a row, `UPDATE`
rewrites every row with the matching key.  Timestamps and user ids are
integers (`Int`), as in the source.  The current time, obtained in the
source via `datetime.utcnow()`, is passed as an explicit parameter.
-/

namespace JoinReqBot

/-- A row of the `messaged_users` table. -/
structure Row where
  user_id : Int
  last_sent_ts : Int
  deriving DecidableEq, Repr

/-- The `messaged_users` table: a sequence of rows. -/
abbrev Table := List Row

/-- The query `SELECT last_sent_ts FROM messaged_users WHERE user_id = ?`
followed by `fetchone()`: the first row with the given key, if any. -/
def selectLastSent (t : Table) (uid : Int) : Option Int :=
  (t.find? (fun r => r.user_id == uid)).map (fun r => r.last_sent_ts)

/-- The statement `INSERT INTO messaged_users(user_id, last_sent_ts)
VALUES(?, ?)`. -/
def insertRow (t : Table) (uid ts : Int) : Table :=
  t ++ [⟨uid, ts⟩]

/-- The statement `UPDATE messaged_users SET last_sent_ts = ? WHERE
user_id = ?`. -/
def updateRow (t : Table) (uid ts : Int) : Table :=
  t.map (fun r => if r.user_id = uid then ⟨uid, ts⟩ else r)

/-- The constant `MIN_SECONDS_BETWEEN_MESSAGES = 24 * 3600` (source line
58). -/
def MIN_SECONDS_BETWEEN_MESSAGES : Int := 24 * 3600

/-- Source `init_db` (lines 67-79): `CREATE TABLE IF NOT EXISTS` keeps an
existing table and otherwise creates an empty one. -/
def init_db (existing : Option Table) : Table :=
  match existing with
  | some t => t
  | none => []

/-- Source `should_send_to_user` (lines 82-101): look up the user's row;
if absent, insert `(uid, now_ts)` and return `True`; if present and
`now_ts - last_ts >= min_seconds`, update the row to `now_ts` and return
`True`; otherwise return `False` leaving the table untouched. -/
def should_send_to_user (t : Table) (uid : Int) (now_ts : Int)
    (min_seconds : Int) : Bool × Table :=
  match selectLastSent t uid with
  | none => (true, insertRow t uid now_ts)
  | some last_ts =>
    if now_ts - last_ts ≥ min_seconds then (true, updateRow t uid now_ts)
    else (false, t)

/-- Result of one `bot.send_message` call, as distinguished by the
handler's `except` clauses (source lines 133-151). -/
inductive SendResult where
  | ok
  | forbidden
  | retryAfter (n : Nat)
  | telegramError
  | unexpectedError
  deriving DecidableEq, Repr

/-- Observable outcome of one `handle_join_request` invocation. -/
inductive Outcome where
  | NoRequest
  | SkippedByCooldown
  | Sent
  | Forbidden
  | RateLimitedSent
  | RateLimitedFailed
  | OtherError
  deriving DecidableEq, Repr

/-- The part of a `ChatJoinRequest` update the cooldown logic reads:
`jreq.from_user.id`. -/
structure ChatJoinRequestEv where
  user_id : Int
  deriving DecidableEq, Repr

/-- Trace of one `handle_join_request` invocation: its outcome, the table
it leaves behind, how many times `bot.send_message` was invoked, and the
durations passed to `asyncio.sleep`. -/
structure HandlerResult where
  outcome : Outcome
  table : Table
  sendCalls : Nat
  sleeps : List Nat
  deriving DecidableEq, Repr

/-- Source `handle_join_request` (lines 105-157): return early when the
update carries no join request; consult `should_send_to_user` (with the
default window) and stop without sending when it denies; otherwise send
once, mapping `Forbidden` / `TelegramError` / other exceptions to their
outcomes, and on `RetryAfter n` sleep `n + 1` seconds and retry exactly
once, the outcome reflecting the retry's result.  `resp i` is the
transport's response to the `i`-th send attempt. -/
def handle_join_request (jreq : Option ChatJoinRequestEv) (t : Table)
    (now_ts : Int) (resp : Nat → SendResult) : HandlerResult :=
  match jreq with
  | none => ⟨.NoRequest, t, 0, []⟩
  | some j =>
    let r := should_send_to_user t j.user_id now_ts MIN_SECONDS_BETWEEN_MESSAGES
    if r.1 = false then ⟨.SkippedByCooldown, r.2, 0, []⟩
    else
      match resp 0 with
      | .ok => ⟨.Sent, r.2, 1, []⟩
      | .forbidden => ⟨.Forbidden, r.2, 1, []⟩
      | .retryAfter n =>
        match resp 1 with
        | .ok => ⟨.RateLimitedSent, r.2, 2, [n + 1]⟩
        | _ => ⟨.RateLimitedFailed, r.2, 2, [n + 1]⟩
      | .telegramError => ⟨.OtherError, r.2, 1, []⟩
      | .unexpectedError => ⟨.OtherError, r.2, 1, []⟩

/-- The token string hard-coded on source line 35 as the right operand of
`or`. -/
def fallback_token : String := "8331279978:AAHn_RSnCykYmFrWibkTvvb4tizgKt1Ywjk"

/-- Source line 35, `BOT_TOKEN = os.environ.get("BOT_TOKEN") or "8331..."`:
Python `or` yields the fallback when the environment variable is unset or
the empty string. -/
def BOT_TOKEN (env : Option String) : String :=
  match env with
  | none => fallback_token
  | some s => if s = "" then fallback_token else s

/-- What `main` does before any polling starts. -/
inductive StartupResult where
  | exitTokenNotSet
  | startsPolling
  deriving DecidableEq, Repr

/-- The startup gate of `main` (source lines 161-164): exit via
`SystemExit` when `BOT_TOKEN == "PUT_YOUR_TOKEN_HERE"` or falsy,
otherwise proceed to `init_db` and `run_polling`. -/
def main (env : Option String) : StartupResult :=
  if BOT_TOKEN env = "PUT_YOUR_TOKEN_HERE" ∨ BOT_TOKEN env = "" then
    .exitTokenNotSet
  else
    .startsPolling

/-- Variant of `should_send_to_user` with a persistence layer that can fail:
`failAt 0` is a failure raised by the `SELECT`, `failAt 1` by the
`INSERT`/`UPDATE`, `failAt 2` by the following `commit`.  The source
(lines 82-101) wraps none of these statements in `try`/`except`, so the
first failure aborts the call with that error. -/
def should_send_to_userE (failAt : Nat → Option String) (t : Table)
    (uid : Int) (now_ts : Int) (min_seconds : Int) :
    Except String (Bool × Table) :=
  match failAt 0 with
  | some e => .error e
  | none =>
    match selectLastSent t uid with
    | none =>
      match failAt 1 with
      | some e => .error e
      | none =>
        match failAt 2 with
        | some e => .error e
        | none => .ok (true, insertRow t uid now_ts)
    | some last_ts =>
      if now_ts - last_ts ≥ min_seconds then
        match failAt 1 with
        | some e => .error e
        | none =>
          match failAt 2 with
          | some e => .error e
          | none => .ok (true, updateRow t uid now_ts)
      else .ok (false, t)

/-- Running `n` invocations of `should_send_to_user` for the same user at
the same timestamp back to back, as the single-threaded event loop of the
source serializes them (the function contains no `await`): the list of
returned booleans and the final table. -/
def runN (t : Table) (uid now_ts w : Int) : Nat → List Bool × Table
  | 0 => ([], t)
  | Nat.succ n =>
    let r := should_send_to_user t uid now_ts w
    let rest := runN r.2 uid now_ts w n
    (r.1 :: rest.1, rest.2)

/-- The user ids present in the table, in row order. -/
def usersOf (t : Table) : List Int :=
  t.map (fun r => r.user_id)

/-- Primary-key invariant of `messaged_users`: no user id occurs twice. -/
def tableOk (t : Table) : Prop :=
  (usersOf t).Nodup

/-! ### Lemmas about the table primitives -/

theorem select_nil (u : Int) : selectLastSent [] u = none := rfl

theorem select_cons (r : Row) (t : Table) (u : Int) :
    selectLastSent (r :: t) u =
      if r.user_id = u then some r.last_sent_ts else selectLastSent t u := by
  by_cases h : r.user_id = u
  · rw [if_pos h]
    unfold selectLastSent
    rw [List.find?_cons_of_pos _ (by simp [h])]
    rfl
  · rw [if_neg h]
    unfold selectLastSent
    rw [List.find?_cons_of_neg _ (by simp [h])]

theorem updateRow_cons (r : Row) (t : Table) (uid ts : Int) :
    updateRow (r :: t) uid ts =
      (if r.user_id = uid then Row.mk uid ts else r) :: updateRow t uid ts :=
  rfl

theorem select_insert_self (t : Table) (uid ts : Int)
    (h : selectLastSent t uid = none) :
    selectLastSent (insertRow t uid ts) uid = some ts := by
  induction t with
  | nil => simp [selectLastSent, insertRow, List.find?]
  | cons r t ih =>
    rw [select_cons] at h
    by_cases hr : r.user_id = uid
    · rw [if_pos hr] at h; exact absurd h (by simp)
    · rw [if_neg hr] at h
      have : insertRow (r :: t) uid ts = r :: insertRow t uid ts := rfl
      rw [this, select_cons, if_neg hr]
      exact ih h

theorem select_insert_other (t : Table) (uid u ts : Int) (hne : u ≠ uid) :
    selectLastSent (insertRow t uid ts) u = selectLastSent t u := by
  induction t with
  | nil =>
    unfold selectLastSent insertRow
    have hb : (uid == u) = false := by simp [Ne.symm hne]
    simp [List.find?, hb]
  | cons r t ih =>
    have : insertRow (r :: t) uid ts = r :: insertRow t uid ts := rfl
    rw [this, select_cons, select_cons, ih]

theorem select_update_self (t : Table) (uid t0 ts : Int)
    (h : selectLastSent t uid = some t0) :
    selectLastSent (updateRow t uid ts) uid = some ts := by
  induction t with
  | nil => exact absurd h (by simp [selectLastSent])
  | cons r t ih =>
    rw [select_cons] at h
    rw [updateRow_cons, select_cons]
    by_cases hr : r.user_id = uid
    · rw [if_pos hr]
      simp
    · rw [if_neg hr] at h ⊢
      rw [if_neg hr]
      exact ih h

theorem select_update_other (t : Table) (uid u ts : Int) (hne : u ≠ uid) :
    selectLastSent (updateRow t uid ts) u = selectLastSent t u := by
  induction t with
  | nil => rfl
  | cons r t ih =>
    rw [updateRow_cons, select_cons, select_cons]
    by_cases hr : r.user_id = uid
    · rw [if_pos hr]
      have h1 : ¬ (Row.mk uid ts).user_id = u := Ne.symm hne
      have h2 : ¬ r.user_id = u := by rw [hr]; exact Ne.symm hne
      rw [if_neg h1, if_neg h2, ih]
    · rw [if_neg hr]
      by_cases hru : r.user_id = u
      · rw [if_pos hru, if_pos hru]
      · rw [if_neg hru, if_neg hru, ih]

theorem usersOf_insert (t : Table) (uid ts : Int) :
    usersOf (insertRow t uid ts) = usersOf t ++ [uid] := by
  simp [usersOf, insertRow]

theorem usersOf_update (t : Table) (uid ts : Int) :
    usersOf (updateRow t uid ts) = usersOf t := by
  induction t with
  | nil => rfl
  | cons r t ih =>
    rw [updateRow_cons]
    by_cases hr : r.user_id = uid
    · rw [if_pos hr]
      unfold usersOf at ih ⊢
      simp only [List.map_cons, ih, hr]
    · rw [if_neg hr]
      unfold usersOf at ih ⊢
      simp only [List.map_cons, ih]

theorem not_mem_usersOf_of_select_none (t : Table) (uid : Int)
    (h : selectLastSent t uid = none) : uid ∉ usersOf t := by
  induction t with
  | nil => simp [usersOf]
  | cons r t ih =>
    rw [select_cons] at h
    by_cases hr : r.user_id = uid
    · rw [if_pos hr] at h; exact absurd h (by simp)
    · rw [if_neg hr] at h
      unfold usersOf
      simp only [List.map_cons, List.mem_cons]
      rintro (hc | hc)
      · exact hr hc.symm
      · exact ih h hc

/-! ### Lemmas about `should_send_to_user` -/

theorem should_send_of_select_none {t : Table} {uid : Int} (now w : Int)
    (h : selectLastSent t uid = none) :
    should_send_to_user t uid now w = (true, insertRow t uid now) := by
  unfold should_send_to_user; rw [h]

theorem should_send_of_select_some_ge {t : Table} {uid t0 : Int} (now w : Int)
    (h : selectLastSent t uid = some t0) (hge : now - t0 ≥ w) :
    should_send_to_user t uid now w = (true, updateRow t uid now) := by
  unfold should_send_to_user
  rw [h]
  show (if now - t0 ≥ w then (true, updateRow t uid now) else (false, t)) = _
  rw [if_pos hge]

theorem should_send_of_select_some_lt {t : Table} {uid t0 : Int} (now w : Int)
    (h : selectLastSent t uid = some t0) (hlt : now - t0 < w) :
    should_send_to_user t uid now w = (false, t) := by
  unfold should_send_to_user
  rw [h]
  show (if now - t0 ≥ w then (true, updateRow t uid now) else (false, t)) = _
  rw [if_neg (not_le.mpr hlt)]

theorem should_send_false_table (t : Table) (uid now w : Int)
    (h : (should_send_to_user t uid now w).1 = false) :
    (should_send_to_user t uid now w).2 = t := by
  cases hs : selectLastSent t uid with
  | none => rw [should_send_of_select_none now w hs] at h; simp at h
  | some t0 =>
    by_cases hge : now - t0 ≥ w
    · rw [should_send_of_select_some_ge now w hs hge] at h; simp at h
    · rw [should_send_of_select_some_lt now w hs (not_le.mp hge)]

theorem should_send_true_select (t : Table) (uid now w : Int)
    (h : (should_send_to_user t uid now w).1 = true) :
    selectLastSent (should_send_to_user t uid now w).2 uid = some now := by
  cases hs : selectLastSent t uid with
  | none =>
    rw [should_send_of_select_none now w hs]
    exact select_insert_self t uid now hs
  | some t0 =>
    by_cases hge : now - t0 ≥ w
    · rw [should_send_of_select_some_ge now w hs hge]
      exact select_update_self t uid t0 now hs
    · rw [should_send_of_select_some_lt now w hs (not_le.mp hge)] at h
      simp at h

theorem runN_replicate_false (t : Table) (uid now w : Int)
    (hsel : selectLastSent t uid = some now) (hw : 0 < w) (m : Nat) :
    runN t uid now w m = (List.replicate m false, t) := by
  induction m with
  | zero => rfl
  | succ m ih =>
    have hcall : should_send_to_user t uid now w = (false, t) :=
      should_send_of_select_some_lt now w hsel (by omega)
    simp only [runN, hcall, ih, List.replicate]

/-! ### The claims -/

/-- C1: `should_send_to_user` follows the specified cooldown algorithm for
every user and every pair of times: a user with no record gets permit and
a record `last_sent_at = now`; a user with a prior send at `t0` gets
permit (with the record updated to `t1`) exactly when `t1 - t0 ≥ window`,
and deny when `t1 - t0 < window`. -/
theorem should_send_follows_cooldown_algorithm (t : Table) (uid t0 t1 w : Int) :
    (selectLastSent t uid = none →
      should_send_to_user t uid t1 w = (true, insertRow t uid t1) ∧
      selectLastSent (should_send_to_user t uid t1 w).2 uid = some t1) ∧
    (selectLastSent t uid = some t0 →
      (t1 - t0 ≥ w →
        should_send_to_user t uid t1 w = (true, updateRow t uid t1) ∧
        selectLastSent (should_send_to_user t uid t1 w).2 uid = some t1) ∧
      (t1 - t0 < w → should_send_to_user t uid t1 w = (false, t))) := by
  refine ⟨fun hnone => ?_, fun hsome => ⟨fun hge => ?_, fun hlt => ?_⟩⟩
  · have he := should_send_of_select_none t1 w hnone
    exact ⟨he, by rw [he]; exact select_insert_self t uid t1 hnone⟩
  · have he := should_send_of_select_some_ge t1 w hsome hge
    exact ⟨he, by rw [he]; exact select_update_self t uid t0 t1 hsome⟩
  · exact should_send_of_select_some_lt t1 w hsome hlt

theorem should_send_follows_cooldown_algorithm_witness :
    should_send_to_user [Row.mk 7 0] 7 86400 86400 =
      (true, updateRow [Row.mk 7 0] 7 86400) ∧
    selectLastSent (should_send_to_user [Row.mk 7 0] 7 86400 86400).2 7 =
      some 86400 :=
  ((should_send_follows_cooldown_algorithm [Row.mk 7 0] 7 0 86400 86400).2
    (by decide)).1 (by decide)

/-- C2: invocations of `should_send_to_user` are atomic units (the
function contains no `await` and runs on the single-threaded event loop,
so concurrent handler tasks interleave only at whole-operation
granularity); any serialization of `n` simultaneous invocations for the
same never-seen user yields exactly one permit and `n - 1` denies, for
any positive cooldown window. -/
theorem should_send_serialized_exactly_one_permit (t : Table)
    (uid now w : Int) (n : Nat) (hsel : selectLastSent t uid = none)
    (hw : 0 < w) (hn : 0 < n) :
    (runN t uid now w n).1.count true = 1 ∧
    (runN t uid now w n).1.count false = n - 1 := by
  obtain ⟨m, rfl⟩ : ∃ m, n = m + 1 := ⟨n - 1, by omega⟩
  have hcall := should_send_of_select_none now w hsel
  have hsel2 := select_insert_self t uid now hsel
  have hrest := runN_replicate_false (insertRow t uid now) uid now w hsel2 hw m
  simp only [runN, hcall, hrest]
  constructor
  · simp [List.count_cons, List.count_replicate]
  · simp [List.count_cons, List.count_replicate]

theorem should_send_serialized_exactly_one_permit_witness :
    (runN [] 5 100 86400 3).1.count true = 1 ∧
    (runN [] 5 100 86400 3).1.count false = 3 - 1 :=
  should_send_serialized_exactly_one_permit [] 5 100 86400 3 rfl
    (by decide) (by decide)

/-- C4: side-effect footprint of `should_send_to_user`: a denied call
leaves the table completely unchanged, and a permitted call writes
exactly the record keyed by the given `user_id` (set to `now`), every
other user's record being untouched. -/
theorem should_send_frame (t : Table) (uid now w : Int) :
    ((should_send_to_user t uid now w).1 = false →
      (should_send_to_user t uid now w).2 = t) ∧
    ((should_send_to_user t uid now w).1 = true →
      selectLastSent (should_send_to_user t uid now w).2 uid = some now ∧
      ∀ u, u ≠ uid →
        selectLastSent (should_send_to_user t uid now w).2 u =
          selectLastSent t u) := by
  refine ⟨should_send_false_table t uid now w,
    fun h => ⟨should_send_true_select t uid now w h, fun u hu => ?_⟩⟩
  cases hs : selectLastSent t uid with
  | none =>
    rw [should_send_of_select_none now w hs]
    exact select_insert_other t uid u now hu
  | some t0 =>
    by_cases hge : now - t0 ≥ w
    · rw [should_send_of_select_some_ge now w hs hge]
      exact select_update_other t uid u now hu
    · rw [should_send_of_select_some_lt now w hs (not_le.mp hge)]

theorem should_send_frame_witness :
    selectLastSent (should_send_to_user [] 4 10 86400).2 4 = some 10 :=
  ((should_send_frame [] 4 10 86400).2 (by decide)).1

/-- C10: when the stored timestamp lies in the future (negative elapsed
time, e.g. after a clock step backwards), `should_send_to_user` denies
and leaves the table unchanged, for any positive cooldown window. -/
theorem should_send_future_timestamp_denies (t : Table) (uid t0 now w : Int)
    (hw : 0 < w) (hs : selectLastSent t uid = some t0) (hlt : now < t0) :
    should_send_to_user t uid now w = (false, t) :=
  should_send_of_select_some_lt now w hs (by omega)

theorem should_send_future_timestamp_denies_witness :
    should_send_to_user [Row.mk 2 1000] 2 400 86400 =
      (false, [Row.mk 2 1000]) :=
  should_send_future_timestamp_denies [Row.mk 2 1000] 2 1000 400 86400
    (by decide) (by decide) (by decide)

/-- C3: when the cooldown store denies, `handle_join_request` makes no
outbound send call at all: the outcome is `SkippedByCooldown`, the number
of `bot.send_message` invocations is zero, and the table is unchanged. -/
theorem handle_join_request_deny_no_send (j : ChatJoinRequestEv) (t : Table)
    (now : Int) (resp : Nat → SendResult)
    (h : (should_send_to_user t j.user_id now MIN_SECONDS_BETWEEN_MESSAGES).1
      = false) :
    handle_join_request (some j) t now resp =
      ⟨.SkippedByCooldown, t, 0, []⟩ := by
  have ht :=
    should_send_false_table t j.user_id now MIN_SECONDS_BETWEEN_MESSAGES h
  simp [handle_join_request, h, ht]

theorem handle_join_request_deny_no_send_witness :
    handle_join_request (some (ChatJoinRequestEv.mk 9)) [Row.mk 9 50] 100
      (fun _ => SendResult.ok) =
      ⟨.SkippedByCooldown, [Row.mk 9 50], 0, []⟩ :=
  handle_join_request_deny_no_send (ChatJoinRequestEv.mk 9) [Row.mk 9 50] 100
    (fun _ => SendResult.ok) (by decide)

/-- C5: when the transport signals forbidden after a permitted check, the
handler does not retry (exactly one send call) and the cooldown record
stays updated: the failed delivery consumes the window, so a request from
the same user within the window is denied. -/
theorem handle_join_request_forbidden_consumes_cooldown
    (j : ChatJoinRequestEv) (t : Table) (now : Int) (resp : Nat → SendResult)
    (hp : (should_send_to_user t j.user_id now MIN_SECONDS_BETWEEN_MESSAGES).1
      = true)
    (hr : resp 0 = .forbidden) :
    handle_join_request (some j) t now resp =
      ⟨.Forbidden,
        (should_send_to_user t j.user_id now MIN_SECONDS_BETWEEN_MESSAGES).2,
        1, []⟩ ∧
    ∀ t2, t2 - now < MIN_SECONDS_BETWEEN_MESSAGES →
      (should_send_to_user
        (should_send_to_user t j.user_id now MIN_SECONDS_BETWEEN_MESSAGES).2
        j.user_id t2 MIN_SECONDS_BETWEEN_MESSAGES).1 = false := by
  constructor
  · simp [handle_join_request, hp, hr]
  · intro t2 h2
    have hsel :=
      should_send_true_select t j.user_id now MIN_SECONDS_BETWEEN_MESSAGES hp
    rw [should_send_of_select_some_lt t2 MIN_SECONDS_BETWEEN_MESSAGES hsel h2]

theorem handle_join_request_forbidden_consumes_cooldown_witness :
    handle_join_request (some (ChatJoinRequestEv.mk 1)) [] 0
      (fun _ => SendResult.forbidden) =
      ⟨.Forbidden,
        (should_send_to_user [] 1 0 MIN_SECONDS_BETWEEN_MESSAGES).2, 1, []⟩ ∧
    (should_send_to_user
      (should_send_to_user [] 1 0 MIN_SECONDS_BETWEEN_MESSAGES).2
      1 3600 MIN_SECONDS_BETWEEN_MESSAGES).1 = false :=
  ⟨(handle_join_request_forbidden_consumes_cooldown (ChatJoinRequestEv.mk 1)
      [] 0 (fun _ => SendResult.forbidden) (by decide) rfl).1,
   (handle_join_request_forbidden_consumes_cooldown (ChatJoinRequestEv.mk 1)
      [] 0 (fun _ => SendResult.forbidden) (by decide) rfl).2 3600 (by decide)⟩

/-- C6: on a rate-limited signal advertising retry-after `n`, the handler
sleeps exactly `n + 1` seconds, retries exactly once (two send calls in
total, never a third), and the outcome reflects the retry's result. -/
theorem handle_join_request_rate_limited_single_retry (j : ChatJoinRequestEv)
    (t : Table) (now : Int) (resp : Nat → SendResult) (n : Nat)
    (hp : (should_send_to_user t j.user_id now MIN_SECONDS_BETWEEN_MESSAGES).1
      = true)
    (hr : resp 0 = .retryAfter n) :
    (handle_join_request (some j) t now resp).sleeps = [n + 1] ∧
    (handle_join_request (some j) t now resp).sendCalls = 2 ∧
    ((handle_join_request (some j) t now resp).outcome = .RateLimitedSent ↔
      resp 1 = .ok) ∧
    (resp 1 ≠ .ok →
      (handle_join_request (some j) t now resp).outcome =
        .RateLimitedFailed) := by
  cases h1 : resp 1 <;> simp [handle_join_request, hp, hr, h1]

theorem handle_join_request_rate_limited_single_retry_witness :
    (handle_join_request (some (ChatJoinRequestEv.mk 2)) [] 0
      (fun i => if i = 0 then SendResult.retryAfter 5 else SendResult.ok)
      ).sleeps = [6] ∧
    (handle_join_request (some (ChatJoinRequestEv.mk 2)) [] 0
      (fun i => if i = 0 then SendResult.retryAfter 5 else SendResult.ok)
      ).sendCalls = 2 ∧
    (handle_join_request (some (ChatJoinRequestEv.mk 2)) [] 0
      (fun i => if i = 0 then SendResult.retryAfter 5 else SendResult.ok)
      ).outcome = .RateLimitedSent :=
  ⟨(handle_join_request_rate_limited_single_retry (ChatJoinRequestEv.mk 2)
      [] 0 _ 5 (by decide) rfl).1,
   (handle_join_request_rate_limited_single_retry (ChatJoinRequestEv.mk 2)
      [] 0 _ 5 (by decide) rfl).2.1,
   (handle_join_request_rate_limited_single_retry (ChatJoinRequestEv.mk 2)
      [] 0 _ 5 (by decide) rfl).2.2.1.mpr rfl⟩

/-- C7: a persistence-layer failure inside `should_send_to_user`
propagates to the caller as the error itself (the source wraps none of
the sqlite statements in `try`/`except`): a failing `SELECT` aborts the
call with that error, a failing `INSERT`/`UPDATE` on the permit path
aborts with that error, and only a completely failure-free run returns
the boolean of the pure algorithm. -/
theorem should_send_persistence_error_propagates
    (failAt : Nat → Option String) (t : Table) (uid now w : Int) (e : String) :
    (failAt 0 = some e →
      should_send_to_userE failAt t uid now w = .error e) ∧
    (failAt 0 = none → failAt 1 = some e →
      (should_send_to_user t uid now w).1 = true →
      should_send_to_userE failAt t uid now w = .error e) ∧
    ((∀ i, failAt i = none) →
      should_send_to_userE failAt t uid now w =
        .ok (should_send_to_user t uid now w)) := by
  refine ⟨fun h0 => ?_, fun h0 h1 hp => ?_, fun hall => ?_⟩
  · unfold should_send_to_userE
    rw [h0]
  · unfold should_send_to_userE
    rw [h0]
    cases hs : selectLastSent t uid with
    | none => rw [h1]
    | some t0 =>
      by_cases hge : now - t0 ≥ w
      · show (if now - t0 ≥ w then _ else _) = _
        rw [if_pos hge, h1]
      · rw [should_send_of_select_some_lt now w hs (not_le.mp hge)] at hp
        exact absurd hp (by simp)
  · unfold should_send_to_userE
    rw [hall 0]
    cases hs : selectLastSent t uid with
    | none =>
      rw [hall 1, hall 2, should_send_of_select_none now w hs]
    | some t0 =>
      by_cases hge : now - t0 ≥ w
      · show (if now - t0 ≥ w then _ else _) = _
        rw [if_pos hge, hall 1, hall 2,
          should_send_of_select_some_ge now w hs hge]
      · show (if now - t0 ≥ w then _ else _) = _
        rw [if_neg hge,
          should_send_of_select_some_lt now w hs (not_le.mp hge)]

theorem should_send_persistence_error_propagates_witness :
    should_send_to_userE
      (fun i => if i = 0 then some "storage unavailable" else none)
      [] 8 0 86400 = .error "storage unavailable" :=
  (should_send_persistence_error_propagates
    (fun i => if i = 0 then some "storage unavailable" else none)
    [] 8 0 86400 "storage unavailable").1 rfl

/-- C8: evaluation of the startup gate when `BOT_TOKEN` is absent from
the environment.  The claim says the process terminates fatally without
polling; the code instead falls back to the token literal hard-coded on
line 35, which is neither `"PUT_YOUR_TOKEN_HERE"` nor empty, so `main`
proceeds to `init_db` and `run_polling`.  This contradicts the module's
own usage comments (lines 13-15), which describe the fallback as the
`'PUT_YOUR_TOKEN_HERE'` placeholder that the startup check catches. -/
theorem main_missing_env_token_starts_polling :
    main none = .startsPolling ∧ BOT_TOKEN none = fallback_token :=
  ⟨by decide, rfl⟩

/-- C9: every operation preserves the primary-key invariant (at most one
record per `user_id`): `init_db` yields an empty or unchanged table, a
record is created only by a permitted call for a previously absent user
(set to `now`), a permitted call never duplicates a key, and no record is
ever deleted. -/
theorem store_primary_key_invariant (t : Table) (uid now w : Int)
    (hok : tableOk t) :
    tableOk (init_db none) ∧
    (∀ t0, tableOk t0 → tableOk (init_db (some t0))) ∧
    tableOk (should_send_to_user t uid now w).2 ∧
    (∀ u ts, selectLastSent t u = some ts →
      ∃ ts2, selectLastSent (should_send_to_user t uid now w).2 u
        = some ts2) ∧
    (∀ u, selectLastSent t u = none →
      selectLastSent (should_send_to_user t uid now w).2 u ≠ none →
      u = uid ∧ (should_send_to_user t uid now w).1 = true ∧
        selectLastSent (should_send_to_user t uid now w).2 u = some now) := by
  refine ⟨List.nodup_nil, fun t0 h0 => h0, ?_, ?_, ?_⟩
  · cases hs : selectLastSent t uid with
    | none =>
      rw [should_send_of_select_none now w hs]
      unfold tableOk
      rw [usersOf_insert]
      have hnm := not_mem_usersOf_of_select_none t uid hs
      have hok' : (usersOf t).Nodup := hok
      simp [List.nodup_append, hok', hnm]
    | some t0 =>
      by_cases hge : now - t0 ≥ w
      · rw [should_send_of_select_some_ge now w hs hge]
        unfold tableOk
        rw [usersOf_update]
        exact hok
      · rw [should_send_of_select_some_lt now w hs (not_le.mp hge)]
        exact hok
  · intro u ts hu
    cases hs : selectLastSent t uid with
    | none =>
      rw [should_send_of_select_none now w hs]
      have hne : u ≠ uid := fun hc => by rw [hc, hs] at hu; exact absurd hu (by simp)
      rw [select_insert_other t uid u now hne, hu]
      exact ⟨ts, rfl⟩
    | some t0 =>
      by_cases hge : now - t0 ≥ w
      · rw [should_send_of_select_some_ge now w hs hge]
        by_cases hne : u = uid
        · subst hne
          exact ⟨now, select_update_self t u t0 now hs⟩
        · rw [select_update_other t uid u now hne, hu]
          exact ⟨ts, rfl⟩
      · rw [should_send_of_select_some_lt now w hs (not_le.mp hge)]
        exact ⟨ts, hu⟩
  · intro u hu hne
    cases hs : selectLastSent t uid with
    | none =>
      rw [should_send_of_select_none now w hs] at hne ⊢
      by_cases huid : u = uid
      · subst huid
        exact ⟨rfl, rfl, select_insert_self t u now hu⟩
      · rw [select_insert_other t uid u now huid, hu] at hne
        exact absurd rfl hne
    | some t0 =>
      by_cases hge : now - t0 ≥ w
      · rw [should_send_of_select_some_ge now w hs hge] at hne ⊢
        by_cases huid : u = uid
        · subst huid
          rw [hu] at hs
          exact absurd hs (by simp)
        · rw [select_update_other t uid u now huid, hu] at hne
          exact absurd rfl hne
      · rw [should_send_of_select_some_lt now w hs (not_le.mp hge)] at hne
        rw [hu] at hne
        exact absurd rfl hne

theorem store_primary_key_invariant_witness :
    tableOk (should_send_to_user [Row.mk 6 0] 6 100000 86400).2 :=
  (store_primary_key_invariant [Row.mk 6 0] 6 100000 86400
    (by simp [tableOk, usersOf])).2.2.1

end JoinReqBot
